import Mathlib

/-!
Verification of the compass-pal-pro location app core against its spec.

The embedding below translates, into Lean, the parts of the repository that
the claims concern:

* `supabase/functions/predict-location/index.ts` — the prediction endpoint:
  the insufficient-data guard, the label transition model, the three-tier
  fallback cascade, and the legacy time-based predictor used when fewer
  than two labeled samples exist.
* `src/components/dashboard/Dashboard.tsx` — `getUniqueLocations`
  proximity clustering and the sorted "frequent locations" display list.
* the `send-sos` edge function — contact filtering and per-contact
  fan-out dispatch.

JavaScript numbers are modelled as exact rationals (`ℚ`); hours and days
as naturals; JS objects keyed by strings as insertion-ordered association
lists, which preserves the iteration order that the tie-breaking loops in
the source rely on.
-/

/-- JS `Math.min` on the rationals modelling JS numbers. -/
def qmin (a b : ℚ) : ℚ := if a ≤ b then a else b

/-- JS `Math.abs` on rationals. -/
def qabs (q : ℚ) : ℚ := if q < 0 then -q else q

/-- JS `Math.abs` on integers (used for hour differences). -/
def iabs (z : ℤ) : ℤ := if z < 0 then -z else z

/-- `toLowerCase()`: lowercase every character. -/
def lowerChars : List Char → List Char
  | [] => []
  | c :: cs => c.toLower :: lowerChars cs

/-- Drop leading whitespace characters (the trimming of one end). -/
def dropWS : List Char → List Char
  | [] => []
  | c :: cs => if c.isWhitespace then dropWS cs else c :: cs

/-- Label normalization as in the source: `label.toLowerCase().trim()` —
lowercase each character, then strip whitespace from both ends (written by
structural recursion on the character list). -/
def normalizeLabel (s : String) : String :=
  ⟨(dropWS (dropWS (lowerChars s.data)).reverse).reverse⟩

/-- Property access on a JS object modelled as an insertion-ordered
association list (`obj[key]`, `undefined` as `none`). -/
def alookup {α : Type} : List (String × α) → String → Option α
  | [], _ => none
  | (k, v) :: rest, key => if k = key then some v else alookup rest key

/-- `obj[key] = (obj[key] || 0) + 1`: increment a counter field, creating it
at the end of the object (insertion order) when absent. -/
def bump : List (String × ℕ) → String → List (String × ℕ)
  | [], key => [(key, 1)]
  | (k, v) :: rest, key =>
    if k = key then (k, v + 1) :: rest else (k, v) :: bump rest key

/-- `if (!m[a]) m[a] = {}; m[a][b] = (m[a][b] || 0) + 1` on the nested
transition-count object. -/
def bump2 : List (String × List (String × ℕ)) → String → String →
    List (String × List (String × ℕ))
  | [], a, b => [(a, [(b, 1)])]
  | (k, inner) :: rest, a, b =>
    if k = a then (k, bump inner b) :: rest else (k, inner) :: bump2 rest a b

/-- One row of `location_logs` as fetched by the edge function
(`latitude, longitude, hour, day, label, created_at`); rows arrive already
ordered by `created_at` ascending, so the list order is chronological. -/
structure LocationLog where
  latitude : ℚ
  longitude : ℚ
  hour : ℕ
  day : ℕ
  label : Option String
deriving DecidableEq, Repr

/-- JS truthiness of `l.label`: present and not the empty string. -/
def isLabeled (l : LocationLog) : Bool :=
  match l.label with
  | none => false
  | some s => s ≠ ""

/-- `locationLogs.filter((l) => l.label)`. -/
def labeledLogs (logs : List LocationLog) : List LocationLog :=
  logs.filter isLabeled

/-- Normalized label of a log (only used on labeled logs, where the
source applies `log.label!.toLowerCase().trim()`). -/
def normLabel (l : LocationLog) : String :=
  normalizeLabel (l.label.getD "")

/-- The consecutive pairs of a list: the loop `for i; i < len - 1`
pairing element `i` with element `i + 1`. -/
def adjPairs {α : Type} (l : List α) : List (α × α) := l.zip l.tail

/-- Transition model build: for each consecutive pair of labeled logs,
count one `from → to` transition keyed by normalized labels. -/
def buildTransitions (lls : List LocationLog) :
    List (String × List (String × ℕ)) :=
  (adjPairs lls).foldl (fun m p => bump2 m (normLabel p.1) (normLabel p.2)) []

/-- Per-label coordinate aggregation (`labelLocations`): running sums of
latitude and longitude and a count, keyed by normalized label. -/
structure LabelAgg where
  totalLat : ℚ
  totalLng : ℚ
  count : ℕ
deriving DecidableEq, Repr

/-- Add one labeled log into the `labelLocations` accumulator. -/
def bumpAgg : List (String × LabelAgg) → String → ℚ → ℚ →
    List (String × LabelAgg)
  | [], key, la, lo => [(key, ⟨la, lo, 1⟩)]
  | (k, a) :: rest, key, la, lo =>
    if k = key then
      (k, ⟨a.totalLat + la, a.totalLng + lo, a.count + 1⟩) :: rest
    else
      (k, a) :: bumpAgg rest key la lo

/-- `labelLocations` built over the labeled logs. -/
def buildLabelAgg (lls : List LocationLog) : List (String × LabelAgg) :=
  lls.foldl (fun m l => bumpAgg m (normLabel l) l.latitude l.longitude) []

/-- Tally of normalized labels over a list of logs
(`labelCounts` / `allLabelCounts` in the source). -/
def countLabels (lls : List LocationLog) : List (String × ℕ) :=
  lls.foldl (fun m l => bump m (normLabel l)) []

/-- The argmax loop `let maxCount = 0; let maxLabel = ""; for ... if
(count > maxCount)`: first strict maximum in iteration order wins. -/
def pickMax (l : List (String × ℕ)) : String × ℕ :=
  l.foldl (fun acc p => if p.2 > acc.2 then p else acc) ("", 0)

/-- Tier 1: transition lookup from the current label. Yields the chosen
label, `Math.min(0.95, maxCount / total)`, and the total outgoing count,
or `none` when there is no current label or no transitions from it. -/
def tier1 (trans : List (String × List (String × ℕ)))
    (currentLabel : Option String) : Option (String × ℚ × ℕ) :=
  match currentLabel with
  | none => none
  | some cl =>
    match alookup trans (normalizeLabel cl) with
    | none => none
    | some nextOptions =>
      some ((pickMax nextOptions).1,
        qmin (19/20)
          (((pickMax nextOptions).2 : ℚ) / (((nextOptions.map Prod.snd).sum : ℕ) : ℚ)),
        (nextOptions.map Prod.snd).sum)

/-- Tier 2's sample filter: logs on the current day whose hour is within
1 of `(currentHour + 1) % 24`. -/
def relevantLogs (lls : List LocationLog) (currentHour currentDay : ℕ) :
    List LocationLog :=
  lls.filter fun l =>
    l.day == currentDay &&
      decide (iabs ((l.hour : ℤ) - (((currentHour + 1) % 24 : ℕ) : ℤ)) ≤ 1)

/-- Tier 2: time-of-day fallback over the labeled logs. -/
def tier2 (lls : List LocationLog) (currentHour currentDay : ℕ) :
    Option (String × ℚ × ℕ) :=
  if (relevantLogs lls currentHour currentDay).length = 0 then none
  else
    some ((pickMax (countLabels (relevantLogs lls currentHour currentDay))).1,
      qmin (17/20)
        (((pickMax (countLabels (relevantLogs lls currentHour currentDay))).2 : ℚ) /
          ((relevantLogs lls currentHour currentDay).length : ℚ)),
      (relevantLogs lls currentHour currentDay).length)

/-- Outcome of the fallback cascade: final label (possibly `""` when every
candidate label normalizes to empty), confidence, supporting count, and
which tier produced the surviving confidence. -/
structure CascadeOut where
  label : String
  confidence : ℚ
  count : ℕ
  tier : ℕ
deriving DecidableEq, Repr

/-- Tier 3: most common label over all labeled logs,
`Math.min(0.6, maxCount / labeledLogs.length)`. -/
def tier3 (lls : List LocationLog) : CascadeOut :=
  ⟨(pickMax (countLabels lls)).1,
    qmin (3/5) (((pickMax (countLabels lls)).2 : ℚ) / ((lls.length : ℕ) : ℚ)),
    lls.length, 3⟩

/-- Tiers 2 and 3 chained: tier 3 runs exactly when `predictedLabel` is
still falsy after tier 2, in which case it overwrites the confidence and
count that tier 2 may have set. -/
def tier23 (lls : List LocationLog) (currentHour currentDay : ℕ) :
    CascadeOut :=
  match tier2 lls currentHour currentDay with
  | some (lbl, conf, cnt) =>
    if lbl = "" then tier3 lls else ⟨lbl, conf, cnt, 2⟩
  | none => tier3 lls

/-- The full cascade of the label-aware path: tier 1 survives only when it
sets a truthy `predictedLabel`; otherwise control falls through to
tiers 2 and 3 (which overwrite confidence and count whenever they run). -/
def cascade (lls : List LocationLog)
    (trans : List (String × List (String × ℕ)))
    (currentHour currentDay : ℕ) (currentLabel : Option String) :
    CascadeOut :=
  match tier1 trans currentLabel with
  | some (lbl, conf, cnt) =>
    if lbl = "" then tier23 lls currentHour currentDay
    else ⟨lbl, conf, cnt, 1⟩
  | none => tier23 lls currentHour currentDay

/-- The `prediction` object of the success response. -/
structure PredictionOut where
  latitude : ℚ
  longitude : ℚ
  confidence : ℚ
  label : String
  basedOnDataPoints : ℕ
deriving DecidableEq, Repr

/-- A coordinate cluster with a visit count (used both by the legacy
predictor's grouping and by the dashboard's proximity clustering). -/
structure Cluster where
  lat : ℚ
  lng : ℚ
  count : ℕ
deriving DecidableEq, Repr

/-- The string key `lat.toFixed(4) + "," + lng.toFixed(4)` of the legacy
most-visited grouping, modelled by what determines it: for each coordinate,
its sign together with its magnitude rounded to 4 decimal places (ties to
the larger magnitude, as `toFixed` specifies), so that `-0.0000` and
`0.0000` remain distinct keys exactly as the strings are. -/
def round4Key (lat lng : ℚ) : (Bool × ℤ) × (Bool × ℤ) :=
  ((decide (lat < 0), (qabs lat * 10000 + 1/2).floor),
   (decide (lng < 0), (qabs lng * 10000 + 1/2).floor))

/-- `locationCounts[k]` update: create the cluster at the log's exact
coordinates on first sight, then only increment its count. -/
def bumpGeo : List (((Bool × ℤ) × (Bool × ℤ)) × Cluster) →
    ((Bool × ℤ) × (Bool × ℤ)) → ℚ → ℚ →
    List (((Bool × ℤ) × (Bool × ℤ)) × Cluster)
  | [], key, la, lo => [(key, ⟨la, lo, 1⟩)]
  | (k, c) :: rest, key, la, lo =>
    if k = key then (k, ⟨c.lat, c.lng, c.count + 1⟩) :: rest
    else (k, c) :: bumpGeo rest key la lo

/-- `Object.values(locationCounts)` in insertion order. -/
def geoClusters (logs : List LocationLog) : List Cluster :=
  (logs.foldl
    (fun m log =>
      bumpGeo m (round4Key log.latitude log.longitude) log.latitude log.longitude)
    []).map Prod.snd

/-- `(a, b) => a.count > b.count ? a : b` — the reducer of the
most-visited fallback (ties go to the later element). -/
def pickGeo (a b : Cluster) : Cluster := if a.count > b.count then a else b

/-- `Object.values(locationCounts).reduce(...)` — `none` on an empty
collection, where JS `reduce` without an initial value throws. -/
def bestGeo (logs : List LocationLog) : Option Cluster :=
  match geoClusters logs with
  | [] => none
  | c :: rest => some (rest.foldl pickGeo c)

/-- The `timePatterns[currentDay + "-" + nextHour]` group: since the
grouping pass preserves log order within each key, the looked-up group is
the ordered filter of the logs on that exact day and hour. -/
def nextMatches (logs : List LocationLog) (currentHour currentDay : ℕ) :
    List LocationLog :=
  logs.filter fun l => l.day == currentDay && l.hour == ((currentHour + 1) % 24)

/-- The legacy time-based predictor (`timeBasedPrediction`): when the
single next-hour group is nonempty, average it; otherwise fall back to the
most frequent rounded-coordinate cluster. `none` only on empty input
(where the source would throw). -/
def timeBasedPrediction (logs : List LocationLog)
    (currentHour currentDay : ℕ) : Option PredictionOut :=
  if (nextMatches logs currentHour currentDay).length ≠ 0 then
    some ⟨((nextMatches logs currentHour currentDay).map LocationLog.latitude).sum /
        ((nextMatches logs currentHour currentDay).length : ℚ),
      ((nextMatches logs currentHour currentDay).map LocationLog.longitude).sum /
        ((nextMatches logs currentHour currentDay).length : ℚ),
      qmin (4/5)
        ((((nextMatches logs currentHour currentDay).length : ℚ) /
          (logs.length : ℚ)) * 5 + 3/10),
      "~" ++ toString ((currentHour + 1) % 24) ++ ":00",
      (nextMatches logs currentHour currentDay).length⟩
  else
    match bestGeo logs with
    | none => none
    | some best =>
      some ⟨best.lat, best.lng,
        qmin (3/5) (((best.count : ℚ) / (logs.length : ℚ)) * 2),
        "Most visited", best.count⟩

/-- A row inserted into the `predictions` table. -/
structure PredRow where
  predicted_lat : ℚ
  predicted_lng : ℚ
  confidence : ℚ
  label : String
deriving DecidableEq, Repr

/-- The response of the predict-location endpoint (after authentication and
a successful fetch of the logs). -/
inductive PredictResponse where
  | insufficient (status : ℕ) (error : String) (message : String)
      (dataPoints : ℕ)
  | serverError (status : ℕ)
  | ok (status : ℕ) (prediction : PredictionOut)
      (totalDataPoints labeledDataPoints : ℕ) (availableLabels : List String)
deriving DecidableEq, Repr

/-- `predictedLabel || "Unknown"` of the response. -/
def predLabel (c : CascadeOut) : String :=
  if c.label = "" then "Unknown" else c.label

/-- Resolution of the predicted label to coordinates: the mean of the
label's aggregated sums, or `(0, 0)` when the label is falsy or absent. -/
def predCoords (lls : List LocationLog) (c : CascadeOut) : ℚ × ℚ :=
  if c.label = "" then (0, 0)
  else
    match alookup (buildLabelAgg lls) c.label with
    | some a => (a.totalLat / (a.count : ℚ), a.totalLng / (a.count : ℚ))
    | none => (0, 0)

/-- The `prediction` object assembled on the label-aware path. -/
def mkPrediction (logs : List LocationLog) (currentHour currentDay : ℕ)
    (currentLabel : Option String) : PredictionOut :=
  ⟨(predCoords (labeledLogs logs)
      (cascade (labeledLogs logs) (buildTransitions (labeledLogs logs))
        currentHour currentDay currentLabel)).1,
   (predCoords (labeledLogs logs)
      (cascade (labeledLogs logs) (buildTransitions (labeledLogs logs))
        currentHour currentDay currentLabel)).2,
   (cascade (labeledLogs logs) (buildTransitions (labeledLogs logs))
      currentHour currentDay currentLabel).confidence,
   predLabel (cascade (labeledLogs logs) (buildTransitions (labeledLogs logs))
      currentHour currentDay currentLabel),
   (cascade (labeledLogs logs) (buildTransitions (labeledLogs logs))
      currentHour currentDay currentLabel).count⟩

/-- The `predictions` row inserted for a computed prediction object. -/
def rowOf (p : PredictionOut) : PredRow :=
  ⟨p.latitude, p.longitude, p.confidence, p.label⟩

/-- The predict-location request handler from the point where the user's
logs have been fetched (chronologically ascending). Returns the response
together with the list of `predictions` rows inserted along the way. -/
def servePredict (logs : List LocationLog) (currentHour currentDay : ℕ)
    (currentLabel : Option String) : PredictResponse × List PredRow :=
  if logs.length < 3 then
    (.insufficient 400 "Not enough location data"
      "Please log more labeled locations to enable predictions (minimum 3 needed)"
      logs.length, [])
  else if (labeledLogs logs).length < 2 then
    match timeBasedPrediction logs currentHour currentDay with
    | none => (.serverError 500, [])
    | some p => (.ok 200 p logs.length 0 [], [rowOf p])
  else
    (.ok 200 (mkPrediction logs currentHour currentDay currentLabel)
        logs.length (labeledLogs logs).length
        ((buildLabelAgg (labeledLogs logs)).map Prod.fst),
      [rowOf (mkPrediction logs currentHour currentDay currentLabel)])

/-- Projection: the `prediction` object of a success response. -/
def respPrediction : PredictResponse → Option PredictionOut
  | .ok _ p _ _ _ => some p
  | _ => none

/-! ## Dashboard proximity clustering (`getUniqueLocations`) -/

/-- The match test of `clusters.find(...)`: both coordinate differences
from the cluster's recorded centroid are strictly below the 0.001°
threshold. -/
def nearCluster (c : Cluster) (la lo : ℚ) : Prop :=
  qabs (c.lat - la) < 1/1000 ∧ qabs (c.lng - lo) < 1/1000

instance (c : Cluster) (la lo : ℚ) : Decidable (nearCluster c la lo) := by
  unfold nearCluster
  infer_instance

/-- One dashboard clustering step: find the first cluster near the sample
and increment its count, else push a fresh cluster with count 1. -/
def addLog : List Cluster → ℚ → ℚ → List Cluster
  | [], la, lo => [⟨la, lo, 1⟩]
  | c :: rest, la, lo =>
    if nearCluster c la lo then ⟨c.lat, c.lng, c.count + 1⟩ :: rest
    else c :: addLog rest la lo

/-- `getUniqueLocations`: fold the clustering step over the logs. -/
def getUniqueLocations (logs : List LocationLog) : List Cluster :=
  logs.foldl (fun cs l => addLog cs l.latitude l.longitude) []

/-- `uniqueLocations.sort((a, b) => b.count - a.count)` — the clusters as
reported, in descending count order (stable). -/
def sortedClusters (logs : List LocationLog) : List Cluster :=
  (getUniqueLocations logs).mergeSort fun a b => decide (b.count ≤ a.count)

/-! ## Emergency alert dispatch (`send-sos`) -/

/-- An emergency contact as posted to the function. -/
structure Contact where
  name : String
  email : String
  phone : String
deriving DecidableEq, Repr

/-- One per-contact entry of the `results` array. -/
structure SendResult where
  email : String
  success : Bool
  error : Option String
deriving DecidableEq, Repr

/-- The response of the send-sos function. -/
inductive SosResponse where
  | err (status : ℕ) (error : String)
  | ok (success : Bool) (sent total : ℕ) (results : List SendResult)
deriving DecidableEq, Repr

/-- `contacts.filter((c) => c.email)`: the contacts with a truthy
(non-empty) email. -/
def emailable (contacts : List Contact) : List Contact :=
  contacts.filter fun c => c.email ≠ ""

/-- The send-sos handler. The delivery outcome of each HTTP send is
external, so it is abstracted as the oracle `sendOk` (whether the provider
accepted the email) with `errText` the provider's error body on failure.
Returns the response and the list of emails actually dispatched to
(one `fetch` per emailable contact). -/
def sendSos (sendOk : Contact → Bool) (errText : Contact → String)
    (contacts : List Contact) : SosResponse × List String :=
  if contacts.length = 0 then (.err 400 "No contacts provided", [])
  else
    let ec := emailable contacts
    if ec.length = 0 then (.err 400 "No contacts with email addresses", [])
    else
      let results := ec.map fun c =>
        (⟨c.email, sendOk c, if sendOk c then none else some (errText c)⟩ : SendResult)
      (.ok true (results.filter SendResult.success).length ec.length results,
        ec.map Contact.email)

/-- Projection: the reported `total` of a success response. -/
def respTotal : SosResponse → Option ℕ
  | .ok _ _ total _ => some total
  | _ => none

/-- Projection: the reported `sent` of a success response. -/
def respSent : SosResponse → Option ℕ
  | .ok _ sent _ _ => some sent
  | _ => none

/-- Projection: the top-level `success` flag of a success response. -/
def respSuccess : SosResponse → Option Bool
  | .ok s _ _ _ => some s
  | _ => none

/-- Projection: the per-contact `results` array of a success response. -/
def respResults : SosResponse → Option (List SendResult)
  | .ok _ _ _ results => some results
  | _ => none

/-! ## Concrete inputs used by the example-based claims and witnesses -/

/-- The spec's worked example: home, office, home, office in chronological
order (Mon 8h, Mon 9h, Tue 8h, Tue 9h). -/
def demoLogs : List LocationLog :=
  [⟨40, -74, 8, 1, some "home"⟩, ⟨41, -75, 9, 1, some "office"⟩,
   ⟨40, -74, 8, 2, some "home"⟩, ⟨41, -75, 9, 2, some "office"⟩]

/-- Three unlabeled samples all in the next-hour slot (hour 9, day 0). -/
def c6aLogs : List LocationLog :=
  [⟨2, 3, 9, 0, none⟩, ⟨2, 3, 9, 0, none⟩, ⟨2, 3, 9, 0, none⟩]

/-- Three unlabeled samples two hours ahead (hour 10, day 0), leaving the
next-hour slot empty. -/
def c6bLogs : List LocationLog :=
  [⟨2, 3, 10, 0, none⟩, ⟨2, 3, 10, 0, none⟩, ⟨2, 3, 10, 0, none⟩]

/-- Labeled samples for the time-of-day tier: two "home" logs in the
next-hour window and one "office" log outside it. -/
def c5Logs : List LocationLog :=
  [⟨1, 1, 9, 0, some "home"⟩, ⟨1, 1, 9, 0, some "home"⟩,
   ⟨5, 5, 12, 0, some "office"⟩]

/-- The spec's alert example: two contacts with emails and one without. -/
def demoContacts : List Contact :=
  [⟨"A", "a@x.com", "1"⟩, ⟨"B", "", "2"⟩, ⟨"C", "b@x.com", "3"⟩]

/-- A non-empty contact list in which no contact has an email. -/
def noEmailContacts : List Contact :=
  [⟨"B", "", "2"⟩, ⟨"D", "", "4"⟩]

/-! ## Helper lemmas -/

lemma qmin_le_left (a b : ℚ) : qmin a b ≤ a := by
  unfold qmin
  split
  · exact le_refl a
  · linarith [not_le.mp (by assumption)]

lemma qmin_nonneg {a b : ℚ} (ha : 0 ≤ a) (hb : 0 ≤ b) : 0 ≤ qmin a b := by
  unfold qmin
  split <;> assumption

/-- The transition count recorded for `f → t` in the nested counter object. -/
def transCount (m : List (String × List (String × ℕ))) (f t : String) : ℕ :=
  match alookup m f with
  | none => 0
  | some inner => (alookup inner t).getD 0

/-- The total outgoing transition count recorded for `f`. -/
def outgoingTotal (m : List (String × List (String × ℕ))) (f : String) : ℕ :=
  match alookup m f with
  | none => 0
  | some inner => (inner.map Prod.snd).sum

lemma alookup_bump_getD (inner : List (String × ℕ)) (b t : String) :
    (alookup (bump inner b) t).getD 0 =
      (alookup inner t).getD 0 + (if b = t then 1 else 0) := by
  induction inner with
  | nil =>
    by_cases h : b = t <;> simp [bump, alookup, h]
  | cons p rest ih =>
    obtain ⟨k, v⟩ := p
    by_cases hkb : k = b
    · subst hkb
      by_cases hkt : k = t <;> simp [bump, alookup, hkt]
    · by_cases hkt : k = t
      · have hbt : ¬ b = t := fun h => hkb (hkt.trans h.symm)
        have htb : ¬ t = b := fun h => hbt h.symm
        simp [bump, alookup, hkb, hkt, hbt, htb]
      · simp [bump, alookup, hkb, hkt, ih]

lemma sum_bump (inner : List (String × ℕ)) (b : String) :
    ((bump inner b).map Prod.snd).sum = (inner.map Prod.snd).sum + 1 := by
  induction inner with
  | nil => simp [bump]
  | cons p rest ih =>
    obtain ⟨k, v⟩ := p
    by_cases hkb : k = b
    · simp [bump, hkb]
      omega
    · simp [bump, hkb, ih]
      omega

lemma transCount_bump2 (m : List (String × List (String × ℕ)))
    (a b f t : String) :
    transCount (bump2 m a b) f t =
      transCount m f t + (if a = f ∧ b = t then 1 else 0) := by
  induction m with
  | nil =>
    by_cases haf : a = f
    · subst haf
      by_cases hbt : b = t <;> simp [bump2, transCount, alookup, hbt]
    · simp [bump2, transCount, alookup, haf]
  | cons p rest ih =>
    obtain ⟨k, inner⟩ := p
    by_cases hka : k = a
    · subst hka
      by_cases hkf : k = f
      · subst hkf
        simp [bump2, transCount, alookup, alookup_bump_getD]
      · simp [bump2, transCount, alookup, hkf]
    · by_cases hkf : k = f
      · subst hkf
        have haf : ¬ (a = k ∧ b = t) := fun h => hka h.1.symm
        simp [bump2, transCount, alookup, hka, haf]
      · simp only [bump2, if_neg hka]
        simp [transCount, alookup, hkf] at ih ⊢
        exact ih

lemma outgoingTotal_bump2 (m : List (String × List (String × ℕ)))
    (a b f : String) :
    outgoingTotal (bump2 m a b) f =
      outgoingTotal m f + (if a = f then 1 else 0) := by
  induction m with
  | nil =>
    by_cases haf : a = f <;> simp [bump2, outgoingTotal, alookup, haf]
  | cons p rest ih =>
    obtain ⟨k, inner⟩ := p
    by_cases hka : k = a
    · subst hka
      by_cases hkf : k = f
      · subst hkf
        simp [bump2, outgoingTotal, alookup, sum_bump]
      · simp [bump2, outgoingTotal, alookup, hkf]
    · by_cases hkf : k = f
      · subst hkf
        have haf : ¬ (a = k) := fun h => hka h.symm
        simp [bump2, outgoingTotal, alookup, hka, haf]
      · simp only [bump2, if_neg hka]
        simp [outgoingTotal, alookup, hkf] at ih ⊢
        exact ih

lemma transCount_foldPairs (ps : List (LocationLog × LocationLog))
    (m : List (String × List (String × ℕ))) (f t : String) :
    transCount
        (ps.foldl (fun m p => bump2 m (normLabel p.1) (normLabel p.2)) m) f t =
      transCount m f t +
        (ps.filter fun p => decide (normLabel p.1 = f ∧ normLabel p.2 = t)).length := by
  induction ps generalizing m with
  | nil => simp
  | cons p rest ih =>
    simp only [List.foldl_cons, List.filter_cons]
    rw [ih, transCount_bump2]
    by_cases h : normLabel p.1 = f ∧ normLabel p.2 = t
    · simp [h]
      omega
    · simp [h]

lemma outgoingTotal_foldPairs (ps : List (LocationLog × LocationLog))
    (m : List (String × List (String × ℕ))) (f : String) :
    outgoingTotal
        (ps.foldl (fun m p => bump2 m (normLabel p.1) (normLabel p.2)) m) f =
      outgoingTotal m f +
        (ps.filter fun p => decide (normLabel p.1 = f)).length := by
  induction ps generalizing m with
  | nil => simp
  | cons p rest ih =>
    simp only [List.foldl_cons, List.filter_cons]
    rw [ih, outgoingTotal_bump2]
    by_cases h : normLabel p.1 = f
    · simp [h]
      omega
    · simp [h]

lemma foldl_pickMax_cases (l : List (String × ℕ)) :
    ∀ init : String × ℕ,
      l.foldl (fun acc p => if p.2 > acc.2 then p else acc) init = init ∨
        l.foldl (fun acc p => if p.2 > acc.2 then p else acc) init ∈ l := by
  induction l with
  | nil =>
    intro init
    left
    rfl
  | cons p rest ih =>
    intro init
    simp only [List.foldl_cons]
    rcases ih (if p.2 > init.2 then p else init) with h | h
    · rw [h]
      by_cases hp : p.2 > init.2
      · right
        rw [if_pos hp]
        exact List.mem_cons_self ..
      · left
        rw [if_neg hp]
    · right
      exact List.mem_cons_of_mem _ h

lemma foldl_pickMax_ge (l : List (String × ℕ)) :
    ∀ init : String × ℕ,
      init.2 ≤ (l.foldl (fun acc p => if p.2 > acc.2 then p else acc) init).2 ∧
        ∀ p ∈ l, p.2 ≤ (l.foldl (fun acc p => if p.2 > acc.2 then p else acc) init).2 := by
  induction l with
  | nil =>
    intro init
    exact ⟨le_refl _, by simp⟩
  | cons q rest ih =>
    intro init
    simp only [List.foldl_cons]
    obtain ⟨h1, h2⟩ := ih (if q.2 > init.2 then q else init)
    constructor
    · refine le_trans ?_ h1
      by_cases hq : q.2 > init.2
      · rw [if_pos hq]
        omega
      · rw [if_neg hq]
    · intro p hp
      rcases List.mem_cons.mp hp with rfl | hp
      · refine le_trans ?_ h1
        by_cases hq : p.2 > init.2
        · rw [if_pos hq]
        · rw [if_neg hq]
          omega
      · exact h2 p hp

lemma pickMax_mem (counts : List (String × ℕ)) (hne : counts ≠ [])
    (hpos : ∀ p ∈ counts, 1 ≤ p.2) : pickMax counts ∈ counts := by
  unfold pickMax
  rcases foldl_pickMax_cases counts ("", 0) with h | h
  · exfalso
    obtain ⟨c, hc⟩ := List.exists_mem_of_ne_nil counts hne
    have hle := (foldl_pickMax_ge counts ("", 0)).2 c hc
    rw [h] at hle
    have hge := hpos c hc
    simp at hle
    omega
  · exact h

lemma bump_ne_nil (m : List (String × ℕ)) (k : String) : bump m k ≠ [] := by
  cases m with
  | nil => simp [bump]
  | cons p rest =>
    obtain ⟨k1, v⟩ := p
    by_cases h : k1 = k <;> simp [bump, h]

lemma bump_val_pos (m : List (String × ℕ)) (k : String)
    (hm : ∀ q ∈ m, 1 ≤ q.2) : ∀ p ∈ bump m k, 1 ≤ p.2 := by
  induction m with
  | nil =>
    intro p hp
    simp [bump] at hp
    simp [hp]
  | cons q rest ih =>
    obtain ⟨k1, v⟩ := q
    intro p hp
    by_cases h : k1 = k
    · simp [bump, h] at hp
      rcases hp with rfl | hp
      · simp
      · exact hm p (List.mem_cons_of_mem _ hp)
    · simp [bump, h] at hp
      rcases hp with rfl | hp
      · exact hm (k1, v) (by simp)
      · exact ih (fun q hq => hm q (List.mem_cons_of_mem _ hq)) p hp

lemma bump_key_mem (m : List (String × ℕ)) (k : String) :
    ∀ p ∈ bump m k, p.1 = k ∨ ∃ q ∈ m, p.1 = q.1 := by
  induction m with
  | nil =>
    intro p hp
    simp [bump] at hp
    left
    simp [hp]
  | cons q rest ih =>
    obtain ⟨k1, v⟩ := q
    intro p hp
    by_cases h : k1 = k
    · simp [bump, h] at hp
      rcases hp with rfl | hp
      · left
        rfl
      · right
        exact ⟨p, List.mem_cons_of_mem _ hp, rfl⟩
    · simp [bump, h] at hp
      rcases hp with rfl | hp
      · right
        exact ⟨(k1, v), by simp, rfl⟩
      · rcases ih p hp with hk | ⟨q, hq, hpq⟩
        · left
          exact hk
        · right
          exact ⟨q, List.mem_cons_of_mem _ hq, hpq⟩

lemma foldl_bump_key_inv (S : String → Prop) :
    ∀ (ls : List LocationLog) (m : List (String × ℕ)),
      (∀ q ∈ m, S q.1) → (∀ l ∈ ls, S (normLabel l)) →
      ∀ p ∈ ls.foldl (fun m l => bump m (normLabel l)) m, S p.1 := by
  intro ls
  induction ls with
  | nil =>
    intro m hm _
    simpa using hm
  | cons l rest ih =>
    intro m hm hl
    simp only [List.foldl_cons]
    refine ih _ ?_ (fun x hx => hl x (List.mem_cons_of_mem _ hx))
    intro q hq
    rcases bump_key_mem m (normLabel l) q hq with h | ⟨r, hr, hqr⟩
    · rw [h]
      exact hl l (List.mem_cons_self ..)
    · rw [hqr]
      exact hm r hr

lemma countLabels_val_pos (lls : List LocationLog) :
    ∀ p ∈ countLabels lls, 1 ≤ p.2 := by
  suffices h : ∀ (ls : List LocationLog) (m : List (String × ℕ)),
      (∀ q ∈ m, 1 ≤ q.2) →
      ∀ p ∈ ls.foldl (fun m l => bump m (normLabel l)) m, 1 ≤ p.2 by
    exact h lls [] (by simp)
  intro ls
  induction ls with
  | nil =>
    intro m hm
    simpa using hm
  | cons l rest ih =>
    intro m hm
    simp only [List.foldl_cons]
    exact ih _ (bump_val_pos m (normLabel l) hm)

lemma countLabels_key (lls : List LocationLog) :
    ∀ p ∈ countLabels lls, ∃ l ∈ lls, p.1 = normLabel l :=
  foldl_bump_key_inv (fun s => ∃ l ∈ lls, s = normLabel l) lls [] (by simp)
    (fun l hl => ⟨l, hl, rfl⟩)

lemma foldl_bump_ne_nil :
    ∀ (ls : List LocationLog) (m : List (String × ℕ)), m ≠ [] →
      ls.foldl (fun m l => bump m (normLabel l)) m ≠ [] := by
  intro ls
  induction ls with
  | nil =>
    intro m hm
    simpa using hm
  | cons l rest ih =>
    intro m _
    exact ih _ (bump_ne_nil m (normLabel l))

lemma countLabels_ne_nil {lls : List LocationLog} (h : lls ≠ []) :
    countLabels lls ≠ [] := by
  cases lls with
  | nil => exact absurd rfl h
  | cons l rest =>
    unfold countLabels
    simp only [List.foldl_cons]
    exact foldl_bump_ne_nil rest _ (bump_ne_nil [] (normLabel l))

lemma foldl_pickGeo_cases (l : List Cluster) :
    ∀ a : Cluster, l.foldl pickGeo a = a ∨ l.foldl pickGeo a ∈ l := by
  induction l with
  | nil =>
    intro a
    left
    rfl
  | cons c rest ih =>
    intro a
    simp only [List.foldl_cons]
    rcases ih (pickGeo a c) with h | h
    · rw [h]
      unfold pickGeo
      by_cases hc : a.count > c.count
      · left
        rw [if_pos hc]
      · right
        rw [if_neg hc]
        exact List.mem_cons_self ..
    · right
      exact List.mem_cons_of_mem _ h

lemma foldl_pickGeo_ge (l : List Cluster) :
    ∀ a : Cluster,
      a.count ≤ (l.foldl pickGeo a).count ∧
        ∀ c ∈ l, c.count ≤ (l.foldl pickGeo a).count := by
  induction l with
  | nil =>
    intro a
    exact ⟨le_refl _, by simp⟩
  | cons c rest ih =>
    intro a
    simp only [List.foldl_cons]
    obtain ⟨h1, h2⟩ := ih (pickGeo a c)
    constructor
    · refine le_trans ?_ h1
      unfold pickGeo
      by_cases hc : a.count > c.count
      · rw [if_pos hc]
      · rw [if_neg hc]
        omega
    · intro x hx
      rcases List.mem_cons.mp hx with rfl | hx
      · refine le_trans ?_ h1
        unfold pickGeo
        by_cases hc : a.count > x.count
        · rw [if_pos hc]
          omega
        · rw [if_neg hc]
      · exact h2 x hx

/-! ## Claim theorems -/

/-- Claim C1: for the labeled sample sequence home, office, home, office fed
in chronological order with currentLabel = "home", tier-1 prediction returns
label "office" with confidence min(0.95, best_count / total_outgoing) =
min(0.95, 2/2) = 0.95 and basedOnDataPoints = 2. -/
theorem C1_tier1_transition_example :
    cascade (labeledLogs demoLogs) (buildTransitions (labeledLogs demoLogs))
        8 1 (some "home") = ⟨"office", qmin (19/20) ((2 : ℚ) / 2), 2, 1⟩ ∧
    respPrediction (servePredict demoLogs 8 1 (some "home")).1 =
      some ⟨41, -75, 19/20, "office", 2⟩ ∧
    qmin (19/20) ((2 : ℚ) / 2) = 19/20 := by
  with_unfolding_all decide

/-- Claim C3: for every sample set of size below 3, the request fails with
the insufficient-data body (error "Not enough location data", a message, and
the data-point count) at client-error status 400, and no prediction row is
written. -/
theorem C3_insufficient_data_guard (logs : List LocationLog)
    (currentHour currentDay : ℕ) (currentLabel : Option String)
    (hlen : logs.length < 3) :
    servePredict logs currentHour currentDay currentLabel =
      (.insufficient 400 "Not enough location data"
        "Please log more labeled locations to enable predictions (minimum 3 needed)"
        logs.length, []) := by
  unfold servePredict
  rw [if_pos hlen]

/-- Witness for C3 at a concrete two-sample input. -/
theorem C3_insufficient_data_guard_witness :
    servePredict [⟨1, 1, 0, 0, none⟩, ⟨2, 2, 1, 0, none⟩] 0 0 none =
      (.insufficient 400 "Not enough location data"
        "Please log more labeled locations to enable predictions (minimum 3 needed)"
        2, []) :=
  (C3_insufficient_data_guard [⟨1, 1, 0, 0, none⟩, ⟨2, 2, 1, 0, none⟩] 0 0 none
    (by decide)).trans (by decide)

/-- Claim C4: the transition model counts exactly one transition per
consecutive pair of the filtered labeled sequence (so unlabeled samples are
skipped and labeled samples separated by unlabeled ones count as adjacent),
and the total outgoing count from a label equals the number of positions at
which that label is immediately followed by another labeled sample. -/
theorem C4_transition_pair_counts :
    (∀ (logs : List LocationLog) (f t : String),
        transCount (buildTransitions (labeledLogs logs)) f t =
          ((adjPairs (labeledLogs logs)).filter fun p =>
            decide (normLabel p.1 = f ∧ normLabel p.2 = t)).length) ∧
    (∀ (logs : List LocationLog) (f : String),
        outgoingTotal (buildTransitions (labeledLogs logs)) f =
          ((adjPairs (labeledLogs logs)).filter fun p =>
            decide (normLabel p.1 = f)).length) := by
  constructor
  · intro logs f t
    unfold buildTransitions
    rw [transCount_foldPairs]
    simp [transCount, alookup]
  · intro logs f
    unfold buildTransitions
    rw [outgoingTotal_foldPairs]
    simp [outgoingTotal, alookup]

lemma div_cast_nonneg (m n : ℕ) : (0 : ℚ) ≤ (m : ℚ) / (n : ℚ) :=
  div_nonneg (Nat.cast_nonneg m) (Nat.cast_nonneg n)

lemma tier1_conf {trans : List (String × List (String × ℕ))}
    {cl : Option String} {lbl : String} {conf : ℚ} {cnt : ℕ}
    (h : tier1 trans cl = some (lbl, conf, cnt)) :
    0 ≤ conf ∧ conf ≤ 19/20 := by
  cases cl with
  | none => simp [tier1] at h
  | some s =>
    cases halw : alookup trans (normalizeLabel s) with
    | none => simp [tier1, halw] at h
    | some opts =>
      simp only [tier1, halw, Option.some.injEq, Prod.mk.injEq] at h
      obtain ⟨h1, h2, h3⟩ := h
      subst h2
      exact ⟨qmin_nonneg (by norm_num) (div_cast_nonneg _ _), qmin_le_left _ _⟩

lemma tier2_conf {lls : List LocationLog} {hr dy : ℕ}
    {lbl : String} {conf : ℚ} {cnt : ℕ}
    (h : tier2 lls hr dy = some (lbl, conf, cnt)) :
    0 ≤ conf ∧ conf ≤ 17/20 := by
  unfold tier2 at h
  by_cases hlen : (relevantLogs lls hr dy).length = 0
  · rw [if_pos hlen] at h
    simp at h
  · rw [if_neg hlen] at h
    simp at h
    obtain ⟨h1, h2, h3⟩ := h
    subst h2
    exact ⟨qmin_nonneg (by norm_num) (div_cast_nonneg _ _), qmin_le_left _ _⟩

lemma tier3_conf (lls : List LocationLog) :
    0 ≤ (tier3 lls).confidence ∧ (tier3 lls).confidence ≤ 3/5 := by
  unfold tier3
  exact ⟨qmin_nonneg (by norm_num) (div_cast_nonneg _ _), qmin_le_left _ _⟩

lemma tier23_conf (lls : List LocationLog) (hr dy : ℕ) :
    0 ≤ (tier23 lls hr dy).confidence ∧
    ((tier23 lls hr dy).tier = 2 → (tier23 lls hr dy).confidence ≤ 17/20) ∧
    ((tier23 lls hr dy).tier = 3 → (tier23 lls hr dy).confidence ≤ 3/5) ∧
    ((tier23 lls hr dy).tier = 2 ∨ (tier23 lls hr dy).tier = 3) := by
  have h3 := tier3_conf lls
  unfold tier23
  cases ht : tier2 lls hr dy with
  | none =>
    dsimp only
    refine ⟨h3.1, fun habs => absurd habs (by simp [tier3]), fun _ => h3.2,
      Or.inr (by simp [tier3])⟩
  | some v =>
    obtain ⟨lbl, conf, cnt⟩ := v
    dsimp only
    by_cases hl : lbl = ""
    · rw [if_pos hl]
      refine ⟨h3.1, fun habs => absurd habs (by simp [tier3]), fun _ => h3.2,
        Or.inr (by simp [tier3])⟩
    · rw [if_neg hl]
      have hc := tier2_conf ht
      exact ⟨hc.1, fun _ => hc.2, fun habs => absurd habs (by simp),
        Or.inl (by simp)⟩

lemma cascade_conf (lls : List LocationLog)
    (trans : List (String × List (String × ℕ))) (hr dy : ℕ)
    (cl : Option String) :
    0 ≤ (cascade lls trans hr dy cl).confidence ∧
    (cascade lls trans hr dy cl).confidence ≤ 19/20 ∧
    ((cascade lls trans hr dy cl).tier = 1 →
      (cascade lls trans hr dy cl).confidence ≤ 19/20) ∧
    ((cascade lls trans hr dy cl).tier = 2 →
      (cascade lls trans hr dy cl).confidence ≤ 17/20) ∧
    ((cascade lls trans hr dy cl).tier = 3 →
      (cascade lls trans hr dy cl).confidence ≤ 3/5) := by
  obtain ⟨h0, h2, h3, hor⟩ := tier23_conf lls hr dy
  have hle : (tier23 lls hr dy).confidence ≤ 19/20 := by
    rcases hor with h | h
    · linarith [h2 h]
    · linarith [h3 h]
  unfold cascade
  cases ht : tier1 trans cl with
  | none =>
    dsimp only
    exact ⟨h0, hle, fun _ => hle, h2, h3⟩
  | some v =>
    obtain ⟨lbl, conf, cnt⟩ := v
    dsimp only
    by_cases hl : lbl = ""
    · rw [if_pos hl]
      exact ⟨h0, hle, fun _ => hle, h2, h3⟩
    · rw [if_neg hl]
      obtain ⟨hc0, h19⟩ := tier1_conf ht
      exact ⟨hc0, h19, fun _ => h19, fun habs => absurd habs (by simp),
        fun habs => absurd habs (by simp)⟩

lemma timeBased_conf {logs : List LocationLog} {hr dy : ℕ} {p : PredictionOut}
    (hp : timeBasedPrediction logs hr dy = some p) :
    0 ≤ p.confidence ∧ p.confidence ≤ 19/20 := by
  unfold timeBasedPrediction at hp
  by_cases hne : (nextMatches logs hr dy).length ≠ 0
  · rw [if_pos hne] at hp
    simp at hp
    subst hp
    constructor
    · exact qmin_nonneg (by norm_num)
        (by positivity)
    · exact le_trans (qmin_le_left _ _) (by norm_num)
  · rw [if_neg hne] at hp
    cases hb : bestGeo logs with
    | none =>
      rw [hb] at hp
      simp at hp
    | some best =>
      rw [hb] at hp
      simp at hp
      subst hp
      constructor
      · exact qmin_nonneg (by norm_num)
          (mul_nonneg (div_cast_nonneg _ _) (by norm_num))
      · exact le_trans (qmin_le_left _ _) (by norm_num)

lemma servePredict_conf {logs : List LocationLog} {hr dy : ℕ}
    {cl : Option String} {p : PredictionOut}
    (hp : respPrediction (servePredict logs hr dy cl).1 = some p) :
    0 ≤ p.confidence ∧ p.confidence ≤ 19/20 := by
  unfold servePredict at hp
  by_cases h3 : logs.length < 3
  · rw [if_pos h3] at hp
    simp [respPrediction] at hp
  · rw [if_neg h3] at hp
    by_cases h2 : (labeledLogs logs).length < 2
    · rw [if_pos h2] at hp
      cases htb : timeBasedPrediction logs hr dy with
      | none =>
        rw [htb] at hp
        simp [respPrediction] at hp
      | some q =>
        rw [htb] at hp
        simp [respPrediction] at hp
        subst hp
        exact timeBased_conf htb
    · rw [if_neg h2] at hp
      simp [respPrediction] at hp
      subst hp
      have hc := cascade_conf (labeledLogs logs)
        (buildTransitions (labeledLogs logs)) hr dy cl
      exact ⟨hc.1, hc.2.1⟩

/-- Claim C2: on every code path the produced confidence lies in [0, 0.95]
and is bounded by the producing tier's own cap — 0.95 for the transition
tier, 0.85 for the time-of-day tier, 0.6 for the global-fallback tier —
and the legacy coordinate-only path also stays within [0, 0.95]. -/
theorem C2_confidence_bounds :
    (∀ (lls : List LocationLog) (trans : List (String × List (String × ℕ)))
        (hr dy : ℕ) (cl : Option String),
      0 ≤ (cascade lls trans hr dy cl).confidence ∧
      (cascade lls trans hr dy cl).confidence ≤ 19/20 ∧
      ((cascade lls trans hr dy cl).tier = 1 →
        (cascade lls trans hr dy cl).confidence ≤ 19/20) ∧
      ((cascade lls trans hr dy cl).tier = 2 →
        (cascade lls trans hr dy cl).confidence ≤ 17/20) ∧
      ((cascade lls trans hr dy cl).tier = 3 →
        (cascade lls trans hr dy cl).confidence ≤ 3/5)) ∧
    (∀ (logs : List LocationLog) (hr dy : ℕ) (p : PredictionOut),
      timeBasedPrediction logs hr dy = some p →
      0 ≤ p.confidence ∧ p.confidence ≤ 19/20) ∧
    (∀ (logs : List LocationLog) (hr dy : ℕ) (cl : Option String)
        (p : PredictionOut),
      respPrediction (servePredict logs hr dy cl).1 = some p →
      0 ≤ p.confidence ∧ p.confidence ≤ 19/20) :=
  ⟨cascade_conf, fun _ _ _ _ h => timeBased_conf h,
    fun _ _ _ _ _ h => servePredict_conf h⟩

/-- Witness for C2: the tier-3 cap applied to a concrete empty-model
cascade, and the legacy bound at a concrete three-sample input. -/
theorem C2_confidence_bounds_witness :
    (cascade [] [] 0 0 none).confidence ≤ 3/5 ∧
    (0 ≤ (⟨2, 3, 4/5, "~9:00", 3⟩ : PredictionOut).confidence ∧
      (⟨2, 3, 4/5, "~9:00", 3⟩ : PredictionOut).confidence ≤ 19/20) ∧
    (0 ≤ (⟨2, 3, 4/5, "~9:00", 3⟩ : PredictionOut).confidence ∧
      (⟨2, 3, 4/5, "~9:00", 3⟩ : PredictionOut).confidence ≤ 19/20) :=
  ⟨(C2_confidence_bounds.1 [] [] 0 0 none).2.2.2.2 (by with_unfolding_all decide),
   C2_confidence_bounds.2.1 c6aLogs 8 0 ⟨2, 3, 4/5, "~9:00", 3⟩
     (by with_unfolding_all decide),
   C2_confidence_bounds.2.2 c6aLogs 8 0 none ⟨2, 3, 4/5, "~9:00", 3⟩
     (by with_unfolding_all decide)⟩

/-- Claim C5: whenever tier 1 yields nothing (no current label, or no
transitions recorded from it — the first conjunct makes that reading of
`tier1 = none` precise), tier 2 tallies label frequency over exactly the
labeled samples on the current day whose hour is within 1 of
`(current_hour + 1) mod 24`, picks the plurality label (assuming the window
contains a sample and its plurality label is a real, non-empty label), and
sets confidence = min(0.85, winning_count / matching_sample_count). -/
theorem C5_tier2_time_of_day :
    (∀ (trans : List (String × List (String × ℕ))) (cl : Option String),
      tier1 trans cl = none ↔
        (cl = none ∨ ∀ s, cl = some s →
          alookup trans (normalizeLabel s) = none)) ∧
    (∀ (logs : List LocationLog)
        (trans : List (String × List (String × ℕ)))
        (hr dy : ℕ) (cl : Option String),
      tier1 trans cl = none →
      relevantLogs (labeledLogs logs) hr dy ≠ [] →
      (∀ l ∈ relevantLogs (labeledLogs logs) hr dy, normLabel l ≠ "") →
      cascade (labeledLogs logs) trans hr dy cl =
        ⟨(pickMax (countLabels (relevantLogs (labeledLogs logs) hr dy))).1,
         qmin (17/20)
           (((pickMax (countLabels (relevantLogs (labeledLogs logs) hr dy))).2 : ℚ) /
             ((relevantLogs (labeledLogs logs) hr dy).length : ℚ)),
         (relevantLogs (labeledLogs logs) hr dy).length, 2⟩) := by
  constructor
  · intro trans cl
    cases cl with
    | none => simp [tier1]
    | some s =>
      cases halw : alookup trans (normalizeLabel s) with
      | none => simp [tier1, halw]
      | some opts => simp [tier1, halw]
  · intro logs trans hr dy cl ht1 hne hlbl
    have hlen : (relevantLogs (labeledLogs logs) hr dy).length ≠ 0 :=
      fun h => hne (List.length_eq_zero.mp h)
    have hcne := countLabels_ne_nil hne
    have hmem := pickMax_mem _ hcne (countLabels_val_pos _)
    obtain ⟨l, hl, hkeyeq⟩ := countLabels_key _ _ hmem
    have hkey :
        (pickMax (countLabels (relevantLogs (labeledLogs logs) hr dy))).1 ≠ "" := by
      rw [hkeyeq]
      exact hlbl l hl
    unfold cascade
    rw [ht1]
    dsimp only
    unfold tier23 tier2
    rw [if_neg hlen]
    dsimp only
    rw [if_neg hkey]

/-- Witness for C5 at a concrete input: two "home" logs in the next-hour
window and an "office" log outside it, with no current label. -/
theorem C5_tier2_time_of_day_witness :
    cascade (labeledLogs c5Logs) (buildTransitions (labeledLogs c5Logs))
      8 0 none = ⟨"home", 17/20, 2, 2⟩ := by
  have h := C5_tier2_time_of_day.2 c5Logs
    (buildTransitions (labeledLogs c5Logs)) 8 0 none
    (by with_unfolding_all decide) (by with_unfolding_all decide)
    (by with_unfolding_all decide)
  exact h.trans (by with_unfolding_all decide)

/-- Counterexample for claim C6: the legacy path inspects only the single
next hour, capped at 0.8 rather than 0.95. With three unlabeled samples all
in the next-hour slot the code yields 0.8, not the claimed
min(0.95, (3/3)*5 + 0.3) = 0.95; with three samples two hours ahead the
code ignores them entirely and falls back (confidence 0.6), though the
claimed 3-hour scan would have found them with confidence 0.95. -/
theorem C6_legacy_single_hour_cex :
    Option.map PredictionOut.confidence (timeBasedPrediction c6aLogs 8 0) =
      some (4/5) ∧
    Option.map PredictionOut.confidence (timeBasedPrediction c6aLogs 8 0) ≠
      some (qmin (19/20) (((3 : ℚ)/3) * 5 + 3/10)) ∧
    Option.map PredictionOut.confidence (timeBasedPrediction c6bLogs 8 0) =
      some (3/5) ∧
    Option.map PredictionOut.confidence (timeBasedPrediction c6bLogs 8 0) ≠
      some (qmin (19/20) (((3 : ℚ)/3) * 5 + 3/10)) := by
  with_unfolding_all decide

/-- Amended claim C6: the legacy coordinate-only path looks up only the
single group for ((current_hour + 1) mod 24, current_day) — no 3-hour scan
and no day wrap — and when that group is nonempty returns its centroid with
confidence = min(0.8, (count / total_samples) * 5 + 0.3) and
basedOnDataPoints = count. -/
theorem C6_legacy_single_hour (logs : List LocationLog) (hr dy : ℕ)
    (hne : nextMatches logs hr dy ≠ []) :
    timeBasedPrediction logs hr dy =
      some ⟨((nextMatches logs hr dy).map LocationLog.latitude).sum /
          ((nextMatches logs hr dy).length : ℚ),
        ((nextMatches logs hr dy).map LocationLog.longitude).sum /
          ((nextMatches logs hr dy).length : ℚ),
        qmin (4/5)
          ((((nextMatches logs hr dy).length : ℚ) / (logs.length : ℚ)) * 5 + 3/10),
        "~" ++ toString ((hr + 1) % 24) ++ ":00",
        (nextMatches logs hr dy).length⟩ := by
  unfold timeBasedPrediction
  rw [if_pos (fun h => hne (List.length_eq_zero.mp h))]

/-- Witness for the amended C6 at a concrete three-sample input. -/
theorem C6_legacy_single_hour_witness :
    timeBasedPrediction c6aLogs 8 0 = some ⟨2, 3, 4/5, "~9:00", 3⟩ :=
  (C6_legacy_single_hour c6aLogs 8 0 (by with_unfolding_all decide)).trans
    (by with_unfolding_all decide)

/-- Counterexample for claim C7: the most-visited fallback labels the result
"Most visited" (not "Most visited location") and caps confidence at 0.6
(not 0.7): at a concrete input it yields 3/5 where the claim's formula
min(0.7, (3/3)*2) gives 0.7. -/
theorem C7_most_visited_fallback_cex :
    Option.map PredictionOut.label (timeBasedPrediction c6bLogs 8 0) =
      some "Most visited" ∧
    Option.map PredictionOut.label (timeBasedPrediction c6bLogs 8 0) ≠
      some "Most visited location" ∧
    Option.map PredictionOut.confidence (timeBasedPrediction c6bLogs 8 0) =
      some (3/5) ∧
    Option.map PredictionOut.confidence (timeBasedPrediction c6bLogs 8 0) ≠
      some (qmin (7/10) (((3 : ℚ)/3) * 2)) := by
  with_unfolding_all decide

/-- Amended claim C7: when the next-hour group is empty, the legacy path
falls back to the most frequent rounded-coordinate cluster (a cluster of
maximal count among the groups keyed by coordinates rounded to 4 decimal
places), returned with label "Most visited" and confidence
min(0.6, (count / total_samples) * 2). -/
theorem C7_most_visited_fallback (logs : List LocationLog) (hr dy : ℕ)
    (best : Cluster) (hm : nextMatches logs hr dy = [])
    (hb : bestGeo logs = some best) :
    timeBasedPrediction logs hr dy =
      some ⟨best.lat, best.lng,
        qmin (3/5) (((best.count : ℚ) / (logs.length : ℚ)) * 2),
        "Most visited", best.count⟩ ∧
    best ∈ geoClusters logs ∧
    ∀ c ∈ geoClusters logs, c.count ≤ best.count := by
  refine ⟨?_, ?_⟩
  · unfold timeBasedPrediction
    rw [if_neg (by simp [hm])]
    rw [hb]
  · unfold bestGeo at hb
    cases hgc : geoClusters logs with
    | nil =>
      rw [hgc] at hb
      simp at hb
    | cons c rest =>
      rw [hgc] at hb
      simp only [Option.some.injEq] at hb
      subst hb
      constructor
      · rcases foldl_pickGeo_cases rest c with h | h
        · rw [h]
          exact List.mem_cons_self ..
        · exact List.mem_cons_of_mem _ h
      · intro x hx
        rcases List.mem_cons.mp hx with rfl | hx
        · exact (foldl_pickGeo_ge rest x).1
        · exact (foldl_pickGeo_ge rest c).2 x hx

/-- Witness for the amended C7 at a concrete input whose next-hour slot is
empty. -/
theorem C7_most_visited_fallback_witness :
    timeBasedPrediction c6bLogs 8 0 = some ⟨2, 3, 3/5, "Most visited", 3⟩ ∧
    (⟨2, 3, 3⟩ : Cluster) ∈ geoClusters c6bLogs ∧
    ∀ c ∈ geoClusters c6bLogs, c.count ≤ 3 := by
  have h := C7_most_visited_fallback c6bLogs 8 0 ⟨2, 3, 3⟩
    (by with_unfolding_all decide) (by with_unfolding_all decide)
  exact ⟨h.1.trans (by with_unfolding_all decide), h.2.1, fun c hc => h.2.2 c hc⟩

lemma addLog_no_match (cs : List Cluster) (la lo : ℚ)
    (h : ∀ c ∈ cs, ¬ nearCluster c la lo) :
    addLog cs la lo = cs ++ [⟨la, lo, 1⟩] := by
  induction cs with
  | nil => rfl
  | cons c rest ih =>
    simp only [addLog]
    rw [if_neg (h c (List.mem_cons_self ..)),
      ih (fun x hx => h x (List.mem_cons_of_mem _ hx))]
    simp

lemma addLog_first_match (pre post : List Cluster) (c : Cluster) (la lo : ℚ)
    (hpre : ∀ c' ∈ pre, ¬ nearCluster c' la lo) (hc : nearCluster c la lo) :
    addLog (pre ++ c :: post) la lo =
      pre ++ ⟨c.lat, c.lng, c.count + 1⟩ :: post := by
  induction pre with
  | nil =>
    simp only [List.nil_append, addLog]
    rw [if_pos hc]
  | cons p rest ih =>
    simp only [List.cons_append, addLog, List.append_eq]
    rw [if_neg (hpre p (List.mem_cons_self ..)),
      ih (fun x hx => hpre x (List.mem_cons_of_mem _ hx))]

lemma addLog_coords (cs : List Cluster) (la lo : ℚ) :
    (addLog cs la lo).map (fun c => (c.lat, c.lng)) =
        cs.map (fun c => (c.lat, c.lng)) ∨
    (addLog cs la lo).map (fun c => (c.lat, c.lng)) =
        cs.map (fun c => (c.lat, c.lng)) ++ [(la, lo)] := by
  induction cs with
  | nil =>
    right
    rfl
  | cons c rest ih =>
    simp only [addLog]
    by_cases h : nearCluster c la lo
    · rw [if_pos h]
      left
      simp
    · rw [if_neg h]
      rcases ih with h1 | h1
      · left
        simp only [List.map_cons, h1]
      · right
        simp only [List.map_cons, h1, List.cons_append]

lemma sortedClusters_sorted (logs : List LocationLog) :
    List.Sorted (fun a b : Cluster => b.count ≤ a.count)
      (sortedClusters logs) := by
  have hp := List.sorted_mergeSort
    (fun a b c (h1 : decide (b.count ≤ a.count) = true)
        (h2 : decide (c.count ≤ b.count) = true) => by
      simp at h1 h2 ⊢
      omega)
    (fun a b : Cluster => by
      simp [Bool.or_eq_true]
      omega)
    (getUniqueLocations logs)
  exact hp.imp fun h => of_decide_eq_true h

lemma sortedClusters_perm (logs : List LocationLog) :
    (sortedClusters logs).Perm (getUniqueLocations logs) :=
  List.mergeSort_perm _ _

/-- Claim C8: dashboard proximity clustering assigns each sample to the
first cluster within the strict 0.001° tolerance on both axes, incrementing
only that cluster's count and never moving any recorded centroid (which
stays at the cluster's first sample); otherwise it appends a new cluster at
the sample's coordinates with count 1; and the reported cluster list is a
permutation of the clusters sorted by count descending. -/
theorem C8_proximity_clustering :
    (∀ (cs : List Cluster) (la lo : ℚ),
      (∀ c ∈ cs, ¬ nearCluster c la lo) →
      addLog cs la lo = cs ++ [⟨la, lo, 1⟩]) ∧
    (∀ (pre post : List Cluster) (c : Cluster) (la lo : ℚ),
      (∀ c' ∈ pre, ¬ nearCluster c' la lo) → nearCluster c la lo →
      addLog (pre ++ c :: post) la lo =
        pre ++ ⟨c.lat, c.lng, c.count + 1⟩ :: post) ∧
    (∀ (cs : List Cluster) (la lo : ℚ),
      (addLog cs la lo).map (fun c => (c.lat, c.lng)) =
          cs.map (fun c => (c.lat, c.lng)) ∨
      (addLog cs la lo).map (fun c => (c.lat, c.lng)) =
          cs.map (fun c => (c.lat, c.lng)) ++ [(la, lo)]) ∧
    (∀ logs : List LocationLog,
      List.Sorted (fun a b : Cluster => b.count ≤ a.count)
          (sortedClusters logs) ∧
      (sortedClusters logs).Perm (getUniqueLocations logs)) :=
  ⟨addLog_no_match, addLog_first_match, addLog_coords,
    fun logs => ⟨sortedClusters_sorted logs, sortedClusters_perm logs⟩⟩

/-- Witness for C8: a non-matching sample is appended as a fresh cluster,
a matching sample increments the first matching cluster, and the sorted
cluster list of a concrete input is sorted. -/
theorem C8_proximity_clustering_witness :
    addLog [⟨0, 0, 1⟩] 5 5 = [⟨0, 0, 1⟩, ⟨5, 5, 1⟩] ∧
    addLog [⟨0, 0, 1⟩] 0 0 = [⟨0, 0, 2⟩] ∧
    List.Sorted (fun a b : Cluster => b.count ≤ a.count)
      (sortedClusters c6bLogs) := by
  refine ⟨?_, ?_, (C8_proximity_clustering.2.2.2 c6bLogs).1⟩
  · exact (C8_proximity_clustering.1 [⟨0, 0, 1⟩] 5 5
      (by with_unfolding_all decide)).trans (by with_unfolding_all decide)
  · exact (C8_proximity_clustering.2.1 [] [] ⟨0, 0, 1⟩ 0 0 (by simp)
      (by with_unfolding_all decide)).trans (by with_unfolding_all decide)

lemma emailable_ne_nil_imp {contacts : List Contact}
    (h : emailable contacts ≠ []) : contacts ≠ [] := by
  intro hc
  subst hc
  exact h rfl

/-- Claim C9: dispatch sends exactly one notification per contact with a
non-empty email and reports total equal to that filtered count (2 for the
spec's example list); when no contact has an email it fails with the
no-qualifying-contacts error even on a non-empty list, sending nothing. -/
theorem C9_sos_contact_filtering :
    (∀ (sOk : Contact → Bool) (eTx : Contact → String)
        (contacts : List Contact),
      contacts ≠ [] → emailable contacts = [] →
      sendSos sOk eTx contacts =
        (.err 400 "No contacts with email addresses", [])) ∧
    (∀ (sOk : Contact → Bool) (eTx : Contact → String)
        (contacts : List Contact),
      emailable contacts ≠ [] →
      (sendSos sOk eTx contacts).2 = (emailable contacts).map Contact.email ∧
      respTotal (sendSos sOk eTx contacts).1 =
        some (emailable contacts).length) ∧
    (∀ (sOk : Contact → Bool) (eTx : Contact → String),
      (sendSos sOk eTx demoContacts).2 = ["a@x.com", "b@x.com"] ∧
      respTotal (sendSos sOk eTx demoContacts).1 = some 2) := by
  refine ⟨?_, ?_, ?_⟩
  · intro sOk eTx contacts hc hem
    unfold sendSos
    rw [if_neg (fun h => hc (List.length_eq_zero.mp h)),
      if_pos (by rw [hem]; rfl)]
  · intro sOk eTx contacts hem
    have hc := emailable_ne_nil_imp hem
    unfold sendSos
    rw [if_neg (fun h => hc (List.length_eq_zero.mp h)),
      if_neg (fun h => hem (List.length_eq_zero.mp h))]
    exact ⟨rfl, rfl⟩
  · intro sOk eTx
    exact ⟨rfl, rfl⟩

/-- Witness for C9: the refusal on an all-email-less list and the spec's
three-contact example under a concrete delivery oracle. -/
theorem C9_sos_contact_filtering_witness :
    sendSos (fun _ => true) (fun _ => "e") noEmailContacts =
      (.err 400 "No contacts with email addresses", []) ∧
    (sendSos (fun _ => true) (fun _ => "e") demoContacts).2 =
      ["a@x.com", "b@x.com"] ∧
    respTotal (sendSos (fun _ => true) (fun _ => "e") demoContacts).1 =
      some 2 := by
  have h1 := C9_sos_contact_filtering.1 (fun _ => true) (fun _ => "e")
    noEmailContacts (by with_unfolding_all decide) (by with_unfolding_all decide)
  have h2 := C9_sos_contact_filtering.2.1 (fun _ => true) (fun _ => "e")
    demoContacts (by with_unfolding_all decide)
  exact ⟨h1, h2.1.trans (by with_unfolding_all decide),
    h2.2.trans (by with_unfolding_all decide)⟩

/-- Claim C10: with at least one emailable contact, the response always
reports success = true (whatever the per-send outcomes, including all
failing), carries one result entry per emailable contact ({email, success,
error on failure}), and sent equals the number of successful entries. -/
theorem C10_sos_fanout_results
    (sOk : Contact → Bool) (eTx : Contact → String)
    (contacts : List Contact) (hem : emailable contacts ≠ []) :
    respSuccess (sendSos sOk eTx contacts).1 = some true ∧
    respResults (sendSos sOk eTx contacts).1 =
      some ((emailable contacts).map fun c =>
        (⟨c.email, sOk c, if sOk c then none else some (eTx c)⟩ : SendResult)) ∧
    respSent (sendSos sOk eTx contacts).1 =
      some (((emailable contacts).map fun c =>
        (⟨c.email, sOk c, if sOk c then none else some (eTx c)⟩ :
          SendResult)).filter SendResult.success).length := by
  have hc := emailable_ne_nil_imp hem
  unfold sendSos
  rw [if_neg (fun h => hc (List.length_eq_zero.mp h)),
    if_neg (fun h => hem (List.length_eq_zero.mp h))]
  exact ⟨rfl, rfl, rfl⟩

/-- Witness for C10: with the spec's example contacts and an oracle that
fails every send, the batch still reports success = true and sent = 0. -/
theorem C10_sos_fanout_results_witness :
    respSuccess (sendSos (fun _ => false) (fun _ => "boom") demoContacts).1 =
      some true ∧
    respSent (sendSos (fun _ => false) (fun _ => "boom") demoContacts).1 =
      some 0 := by
  have h := C10_sos_fanout_results (fun _ => false) (fun _ => "boom")
    demoContacts (by with_unfolding_all decide)
  exact ⟨h.1, h.2.2.trans (by with_unfolding_all decide)⟩
